import Mathlib

/-!
Shallow embedding of the configuration-loading and reactor core of
graphite-beacon (`graphite_beacon/core.py`) together with the two handler
modules in scope (`handlers/pagerduty.py`, `handlers/hipchat.py`).

Python values that can appear in a parsed configuration are modelled by the
inductive `CVal`.  Python dictionaries are association lists in insertion
order with unique keys (as produced by the YAML parser); `lookupKey` is
Python's `d.get(k)`, `setKey` is `d[k] = v`, `removeKey` is the removing part
of `d.pop(k)`.

Exceptions are modelled with `Except`; where Python mutates an object in
place and then raises, the model's error value carries the mutated state so
that what the caller observes after the exception is part of the result.
-/

/-- Python values occurring in configurations: `None`, booleans, ints
(covering `int`/`long`), floats (as rationals — every float literal in the
sources is exactly representable), strings (covering `str`/`unicode`),
lists, dicts, and tuples (which `merge_configurations` deliberately
rejects). -/
inductive CVal : Type where
  | null : CVal
  | bool : Bool → CVal
  | int : Int → CVal
  | float : Rat → CVal
  | str : String → CVal
  | list : List CVal → CVal
  | dict : List (String × CVal) → CVal
  | tuple : List CVal → CVal
deriving Repr

/-- Python truthiness: `None`, `False`, `0`, `""`, `[]`, `{}`, `()` are falsy. -/
def pyTruthy : CVal → Bool
  | .null => false
  | .bool b => b
  | .int n => n != 0
  | .float q => q != 0
  | .str s => s != ""
  | .list xs => !xs.isEmpty
  | .dict kvs => !kvs.isEmpty
  | .tuple xs => !xs.isEmpty

/-- `d.get(k)`: first binding of `k` (dicts have unique keys). -/
def lookupKey : List (String × CVal) → String → Option CVal
  | [], _ => none
  | (k, v) :: rest, key => if k = key then some v else lookupKey rest key

/-- `d[k] = v`: update the binding if present, else append (insertion order). -/
def setKey : List (String × CVal) → String → CVal → List (String × CVal)
  | [], key, v => [(key, v)]
  | (k, w) :: rest, key, v =>
      if k = key then (k, v) :: rest else (k, w) :: setKey rest key v

/-- The removal performed by `d.pop(k, default)`. -/
def removeKey (kvs : List (String × CVal)) (key : String) : List (String × CVal) :=
  kvs.filter (fun kv => kv.1 ≠ key)

/-- `dict(d); d.update(e)` — shallow key-wise update used by `reinit` on the
defaults. -/
def updateAll (d : List (String × CVal)) : List (String × CVal) → List (String × CVal)
  | [] => d
  | (k, v) :: rest => updateAll (setKey d k v) rest

/-- Result of `merge_configurations(a, b)`.  Python mutates `a` in place and
may raise `ConfigMergeError` part-way through; `err s` carries the state of
`a` observable by the caller after the exception. -/
inductive MergeRes : Type where
  | ok : CVal → MergeRes
  | err : CVal → MergeRes
deriving Repr

/-- The `isinstance` chain of `merge_configurations`: `a` is `None`, `str`,
`unicode`, `int`, `long` or `float` (booleans are `int` instances in
Python). -/
def isScalar : CVal → Bool
  | .null => true
  | .bool _ => true
  | .int _ => true
  | .float _ => true
  | .str _ => true
  | _ => false

mutual

/-- `merge_configurations(a, b)` from `core.py`.

* scalar / `None` `a`: replaced by `b`;
* list `a`: `b`'s elements appended if `b` is a list, else `b` appended as a
  single element;
* dict `a`, dict `b`: key-wise merge via `mergeDict`;
* dict `a`, non-dict `b`: `ConfigMergeError`, `a` untouched;
* any other `a` (tuples, objects): the `NOT IMPLEMENTED` `ConfigMergeError`,
  `a` untouched.

The `except TypeError` wrapper of the original cannot fire on values of
`CVal`: every operation used (membership test, indexing, append) is total
here, so it has no counterpart in the model. -/
def merge : CVal → CVal → MergeRes
  | .null, b => .ok b
  | .bool _, b => .ok b
  | .int _, b => .ok b
  | .float _, b => .ok b
  | .str _, b => .ok b
  | .list xs, b =>
      match b with
      | .list ys => .ok (.list (xs ++ ys))
      | _ => .ok (.list (xs ++ [b]))
  | .dict kvs, b =>
      match b with
      | .dict bkvs => mergeDict kvs bkvs
      | _ => .err (.dict kvs)
  | .tuple xs, _ => .err (.tuple xs)

/-- The `for key in b` loop of the dict/dict branch.  For each binding of
`b`: a key already in `a` is merged recursively (in-place mutation of the
stored value is reflected by writing the recursive result back even on
error), a fresh key is copied in.  On a recursive error the partially
updated `a` is what the caller observes. -/
def mergeDict : List (String × CVal) → List (String × CVal) → MergeRes
  | akvs, [] => .ok (.dict akvs)
  | akvs, (k, v) :: rest =>
      match lookupKey akvs k with
      | none => mergeDict (setKey akvs k v) rest
      | some av =>
          match merge av v with
          | .ok mv => mergeDict (setKey akvs k mv) rest
          | .err av2 => .err (.dict (setKey akvs k av2))

end

/-- Exceptions escaping `Reactor.load_configuration`:

* `invalidConfig p` — the `InvalidConfigError` raised when reading or parsing
  the file at `p` fails (`IOError`, `ValueError`, `yaml.error.YAMLError`);
* `attrError` — an `AttributeError`/`TypeError` that the `except` clause does
  not catch (e.g. `pop`/`reverse`/`append` on a value of the wrong type, or
  `open` on a non-string path);
* `mergeError` — a `ConfigMergeError` from the final merge fold;
* `fuelOut` — the work-list loop exceeded the modelling fuel (the Python
  loop does not terminate on cyclic includes; fuel makes the model total). -/
inductive LoadErr : Type where
  | invalidConfig : String → LoadErr
  | attrError : LoadErr
  | mergeError : LoadErr
  | fuelOut : LoadErr
deriving Repr, DecidableEq

/-- The filesystem+parser seen by `load_config_file`: `some v` means the file
exists, is readable, and (after comment stripping) parses to `v`; `none`
covers `IOError`, `ValueError` and YAML errors, all mapped to
`InvalidConfigError` by the loader. -/
def FileSys : Type := String → Option CVal

/-- `config_object.pop('include', [])` followed by the type demands of
`nested_includes.reverse()`: the parsed file must be a mapping (otherwise
`.pop` raises `AttributeError`) and a present `include` value must be a list
(otherwise `.reverse` raises `AttributeError`). -/
def popIncludeList : CVal → Except LoadErr (List CVal × List (String × CVal))
  | .dict kvs =>
      match lookupKey kvs "include" with
      | none => .ok ([], kvs)
      | some (.list xs) => .ok (xs, removeKey kvs "include")
      | some _ => .error .attrError
  | _ => .error .attrError

/-- The `while len(includes) > 0` work-list loop of `load_configuration`.

The Lean list is the Python `includes` list REVERSED, so Python's
`includes.pop()` (pop from the end) is pop-from-the-head here, and Python's
`includes.extend(reversed(nested))` (append at the end) is prepending
`nested` un-reversed at the head.  Returns the loaded config fragments in
load order together with the trace of file paths in load order. -/
def loadLoop (fs : FileSys) :
    Nat → List CVal → Except LoadErr (List (List (String × CVal)) × List String)
  | _, [] => .ok ([], [])
  | 0, _ :: _ => .error .fuelOut
  | n + 1, p :: rest =>
      if pyTruthy p then
        match p with
        | .str s =>
            match fs s with
            | none => .error (.invalidConfig s)
            | some v =>
                match popIncludeList v with
                | .error e => .error e
                | .ok (nested, kvs) =>
                    match loadLoop fs n (nested ++ rest) with
                    | .error e => .error e
                    | .ok (cfgs, tr) => .ok (kvs :: cfgs, s :: tr)
        | _ => .error .attrError
      else loadLoop fs n rest

/-- `merged_config = {}` followed by
`for config in configs: merge_configurations(merged_config, config)`.
A `ConfigMergeError` raised by the fold propagates out of
`load_configuration` (its `except` clause does not catch it). -/
def mergeAll : CVal → List (List (String × CVal)) → Except LoadErr CVal
  | m, [] => .ok m
  | m, c :: rest =>
      match merge m (.dict c) with
      | .ok m2 => mergeAll m2 rest
      | .err _ => .error .mergeError

/-- The part of `load_configuration` after `include` has been popped:
`d` is the mutated `defaults`, `incs` its former `include` list.  The
Python work list is `incs ++ [d.get('config')]`, i.e. (reversed, head =
next to pop) `d.get('config') :: incs.reverse`. -/
def loadConfigGo (fs : FileSys) (fuel : Nat) (d : List (String × CVal))
    (incs : List CVal) : Except LoadErr (CVal × List String) :=
  match loadLoop fs fuel (((lookupKey d "config").getD .null) :: incs.reverse) with
  | .error e => .error e
  | .ok (cfgs, tr) =>
      match mergeAll (.dict []) (d :: cfgs) with
      | .error e => .error e
      | .ok m => .ok (m, tr)

/-- `Reactor.load_configuration(defaults)`: pop `defaults['include']`, append
`defaults.get('config')`, drain the work list, then fold all collected
fragments (with the popped `defaults` first) into one tree starting from
`{}`.  Also returns the trace of file paths in load order.  A non-list
`include` value raises (`.append` on it fails). -/
def load_configuration (fs : FileSys) (fuel : Nat) (defaults : List (String × CVal)) :
    Except LoadErr (CVal × List String) :=
  match lookupKey defaults "include" with
  | some (.list incs) => loadConfigGo fs fuel (removeKey defaults "include") incs
  | some _ => .error .attrError
  | none => loadConfigGo fs fuel defaults []

/-- `Reactor.defaults`, the class-level default options (`core.py` 23-42). -/
def reactorDefaults : List (String × CVal) :=
  [("auth_password", .null),
   ("auth_username", .null),
   ("config", .str "config.json"),
   ("critical_handlers", .list [.str "log"]),
   ("debug", .bool false),
   ("format", .str "short"),
   ("graphite_url", .str "http://localhost"),
   ("history_size", .str "1day"),
   ("interval", .str "10minute"),
   ("logging", .str "info"),
   ("method", .str "average"),
   ("normal_handlers", .list [.str "log"]),
   ("pidfile", .null),
   ("prefix", .str "[BEACON]"),
   ("repeat_interval", .str "2hour"),
   ("request_timeout", .float 20),
   ("send_initial", .bool false),
   ("warning_handlers", .list [.str "log"])]

/-- The mutable fields of a `Reactor` the claims are about.  `options` is
`None` until the first successful configuration load; Python's alert `set`
and per-level handler `set`s are lists in a fixed enumeration order (set
membership is identity-based: `A`/`H` instantiate to instance identifiers,
and `BaseAlert.get`/`registry.get` return distinct instances, so list
membership coincides with Python set membership). -/
structure Reactor (A H : Type) where
  options : Option CVal
  defaults : List (String × CVal)
  alerts : List A
  handlers : List (String × List H)
deriving Repr

/-- The reactor state entering the first `reinit` from `__init__`:
`self.alerts = set()`, `self.options = None`, class-level `defaults`, and no
`handlers` attribute yet (modelled as the empty map; nothing reads it before
`reinit` assigns it). -/
def initialReactor (A H : Type) : Reactor A H :=
  { options := none, defaults := reactorDefaults, alerts := [], handlers := [] }

/-- `d.get(k, dflt)` on the merged options (always a mapping, see
`load_configuration_dict`); on a non-mapping the fallback is never taken by
any caller in scope. -/
def pyDictGet (v : CVal) (k : String) (dflt : CVal) : CVal :=
  match v with
  | .dict kvs => (lookupKey kvs k).getD dflt
  | _ => dflt

/-- `d[k]` subscription: `none` models the `KeyError`/`TypeError` raised on a
missing key or a non-mapping. -/
def pyGetItem : CVal → String → Option CVal
  | .dict kvs, k => lookupKey kvs k
  | _, _ => none

/-- `set(BaseAlert.get(self, **opts) for opts in new_options.get('alerts', []))`:
each options entry is passed to the external alert factory `aCtor`
(`BaseAlert.get`, modelled from the spec: returns a fresh alert instance or
raises); any factory exception propagates.  A non-list `alerts` value (not
iterable as intended — iterating a dict or string yields keys/characters the
factory rejects) is folded into the failure case. -/
def buildAlertsGo (aCtor : CVal → Option A) : List CVal → Except Unit (List A)
  | [] => .ok []
  | opts :: rest =>
      match aCtor opts with
      | none => .error ()
      | some a =>
          match buildAlertsGo aCtor rest with
          | .error e => .error e
          | .ok as2 => .ok (a :: as2)

/-- See `buildAlertsGo`; dispatch on the iterability of the `alerts` value. -/
def buildAlerts (aCtor : CVal → Option A) : CVal → Except Unit (List A)
  | .list optss => buildAlertsGo aCtor optss
  | _ => .error ()

/-- Construct each named handler in order, re-raising the first failure. -/
def loadHandlersNames (hCtor : CVal → Option H) : List CVal → Except Unit (List H)
  | [] => .ok []
  | name :: rest =>
      match hCtor name with
      | none => .error ()
      | some h =>
          match loadHandlersNames hCtor rest with
          | .error e => .error e
          | .ok hs => .ok (h :: hs)

/-- The inner loop of `load_handlers` for one level: iterate the names under
`options.get('<level>_handlers')`, constructing each via the external
registry (`registry.get`, modelled from the spec: returns a handler instance
or raises); a construction failure is logged and re-raised.  A missing key
makes `.get` return `None`, and iterating `None` raises `TypeError`;
iterating a non-list is folded into the same failure case.  The built
`handler_set` is returned — and discarded by `load_handlers`. -/
def loadHandlersLevel (hCtor : CVal → Option H) (options : CVal) (level : String) :
    Except Unit (List H) :=
  match pyDictGet options (level ++ "_handlers") .null with
  | .list names => loadHandlersNames hCtor names
  | _ => .error ()

/-- `Reactor.load_handlers(options)` (`core.py` 158-169): `handlers = {}`;
for each of the levels `normal`, `warning`, `critical` a `handler_set` is
built (construction failures re-raise) but never stored into `handlers`
— the function returns the EMPTY mapping. -/
def load_handlers (hCtor : CVal → Option H) (options : CVal) :
    Except Unit (List (String × List H)) :=
  match loadHandlersLevel hCtor options "normal" with
  | .error e => .error e
  | .ok _ =>
      match loadHandlersLevel hCtor options "warning" with
      | .error e => .error e
      | .ok _ =>
          match loadHandlersLevel hCtor options "critical" with
          | .error e => .error e
          | .ok _ => .ok []

/-- A lifecycle call observed on an alert instance. -/
inductive LifeEv (A : Type) : Type where
  | stop : A → LifeEv A
  | start : A → LifeEv A
deriving Repr, DecidableEq

/-- The post-commit loop of `reinit` (`core.py` 96-103):
`for alert in list(old_alerts): alert.stop(); self.alerts.remove(alert)`.
`self.alerts` is already the NEW set; `set.remove` raises `KeyError` when the
old alert is not in it, after `stop()` has already been issued.  The error
carries the partially mutated alert set and the lifecycle trace so far. -/
def stopRemoveLoop [DecidableEq A] :
    List A → List A → List (LifeEv A) →
    Except (List A × List (LifeEv A)) (List A × List (LifeEv A))
  | [], cur, tr => .ok (cur, tr)
  | a :: rest, cur, tr =>
      if a ∈ cur then stopRemoveLoop rest (cur.erase a) (tr ++ [.stop a])
      else .error (cur, tr ++ [.stop a])

/-- Exceptions escaping `Reactor.reinit`. -/
inductive ReinitErr : Type where
  | loadErr : LoadErr → ReinitErr
  | buildErr : ReinitErr
  | keyError : ReinitErr
deriving Repr, DecidableEq

/-- `Reactor.reinit(**options)` (`core.py` 52-107).  The error value carries
the reactor state and lifecycle trace observable after the exception.
`registry.clean()` and `LOGGER.setLevel` act on external state and are not
modelled (no claim mentions them).

* a `load_configuration` failure propagates before any field is assigned;
* a failure constructing any alert or handler rolls `options`/`defaults`
  back to their pre-call values (alerts/handlers were not yet touched) and
  re-raises;
* on construction success the new handler map is committed, then the
  stop/remove loop and the start loop run (`stopRemoveLoop` above may raise
  `KeyError`, leaving the partially processed state in place). -/
def reinit [DecidableEq A] (fs : FileSys) (fuel : Nat) (aCtor : CVal → Option A)
    (hCtor : CVal → Option H) (r : Reactor A H) (options : List (String × CVal)) :
    Except (ReinitErr × Reactor A H × List (LifeEv A)) (Reactor A H × List (LifeEv A)) :=
  let old_options := r.options
  let old_defaults := r.defaults
  let new_defaults := updateAll r.defaults options
  match load_configuration fs fuel new_defaults with
  | .error e => .error (.loadErr e, r, [])
  | .ok (new_options, _) =>
      let r1 : Reactor A H := { r with options := some new_options, defaults := new_defaults }
      match buildAlerts aCtor (pyDictGet new_options "alerts" (.list [])) with
      | .error _ => .error (.buildErr, { r1 with options := old_options, defaults := old_defaults }, [])
      | .ok new_alerts =>
          match load_handlers hCtor new_options with
          | .error _ => .error (.buildErr, { r1 with options := old_options, defaults := old_defaults }, [])
          | .ok new_handlers =>
              let r2 : Reactor A H := { r1 with handlers := new_handlers }
              match stopRemoveLoop r2.alerts new_alerts [] with
              | .error (cur, tr) => .error (.keyError, { r2 with alerts := cur }, tr)
              | .ok (cur, tr) =>
                  .ok ({ r2 with alerts := cur }, tr ++ cur.map LifeEv.start)

/-- `self.handlers.get(level, [])` — the per-level handler set, empty when
the level is absent. -/
def lookupLevel : List (String × List H) → String → List H
  | [], _ => []
  | (k, hs) :: rest, level => if k = level then hs else lookupLevel rest level

/-- `Reactor.notify(level, ...)` (`core.py` 198-207): the event is handed to
each handler in `self.handlers.get(level, [])`, once per handler, in
enumeration order.  The returned list is exactly the handlers that receive
the event. -/
def notify (r : Reactor A H) (level : String) : List H :=
  lookupLevel r.handlers level

/-- `Option.some`-lookup form of the per-level handler map access used by
`self.handlers[level]` (subscription, `KeyError` possible). -/
def lookupLevelOpt : List (String × List H) → String → Option (List H)
  | [], _ => none
  | (k, hs) :: rest, level => if k = level then some hs else lookupLevelOpt rest level

/-- Write back the per-level handler set mutated in place by `set.add`. -/
def setLevel : List (String × List H) → String → List H → List (String × List H)
  | [], level, hs => [(level, hs)]
  | (k, v) :: rest, level, hs =>
      if k = level then (k, hs) :: rest else (k, v) :: setLevel rest level hs

/-- The per-name loop of `reinit_handlers`: each iteration tries
`self.handlers[level].add(registry.get(self, name))` and logs (second
component: the names whose iteration failed, in order) instead of raising —
the `except Exception` catches both a handler-construction failure and the
`KeyError` from `self.handlers[level]` when the level has no entry. -/
def reinitHandlersGo [DecidableEq H] (hCtor : CVal → Option H) (level : String) :
    List (String × List H) → List CVal → List (String × List H) × List CVal
  | handlers, [] => (handlers, [])
  | handlers, name :: rest =>
      match lookupLevelOpt handlers level with
      | none =>
          let res := reinitHandlersGo hCtor level handlers rest
          (res.1, name :: res.2)
      | some hs =>
          match hCtor name with
          | none =>
              let res := reinitHandlersGo hCtor level handlers rest
              (res.1, name :: res.2)
          | some h =>
              reinitHandlersGo hCtor level
                (setLevel handlers level (if h ∈ hs then hs else hs ++ [h])) rest

/-- `Reactor.reinit_handlers(level)` (`core.py` 171-176).  The subscription
`self.options['<level>_handlers']` sits OUTSIDE the per-name `try`, so a
missing key (or `self.options` still `None`, or a non-iterable value) raises
out of the call; inside the loop every exception is logged and skipped.
Returns the updated reactor and the log of failed names. -/
def reinit_handlers [DecidableEq H] (hCtor : CVal → Option H) (r : Reactor A H)
    (level : String) : Except Unit (Reactor A H × List CVal) :=
  match r.options with
  | none => .error ()
  | some opts =>
      match pyGetItem opts (level ++ "_handlers") with
      | some (.list names) =>
          let res := reinitHandlersGo hCtor level r.handlers names
          .ok ({ r with handlers := res.1 }, res.2)
      | _ => .error ()

/-- The observable content of the HTTP request `PagerDutyHandler.notify`
posts to the PagerDuty events API. -/
structure PagerDutyRequest : Type where
  event_type : String
  description : String
  incident_key : String
deriving Repr, DecidableEq

/-- `PagerDutyHandler.notify(level, alert, value, ...)`
(`handlers/pagerduty.py` 22-48): the message is rendered first (external
`get_short`, passed in as `message`), then `critical` maps to a `trigger`
event, `normal` to a `resolve` event, and any other level returns before the
HTTP client is invoked (`none` = no request issued). -/
def pagerdutyNotify (level : String) (alertName : String) (message : String) :
    Option PagerDutyRequest :=
  if level = "critical" then
    some { event_type := "trigger", description := message, incident_key := alertName }
  else if level = "normal" then
    some { event_type := "resolve", description := message, incident_key := alertName }
  else none

/-- `HipChatHandler.SUPPORTED_API_VERSIONS = [1, 2]`. -/
def SUPPORTED_API_VERSIONS : List CVal := [.int 1, .int 2]

/-- The fragment of Python `==` needed by the `in` membership test of
`init_handler` (numeric cross-type equality; `True == 1`). -/
def pyEq : CVal → CVal → Bool
  | .int a, .int b => a == b
  | .bool a, .int b => (if a then (1 : Int) else 0) == b
  | .int a, .bool b => a == (if b then (1 : Int) else 0)
  | .bool a, .bool b => a == b
  | .float a, .float b => a == b
  | .float a, .int b => a == (b : Rat)
  | .int a, .float b => (a : Rat) == b
  | .str a, .str b => a == b
  | .null, .null => true
  | _, _ => false

/-- Python `x in xs` for a list. -/
def pyIn (v : CVal) (xs : List CVal) : Bool := xs.any (pyEq v)

/-- `HipChatHandler.init_handler` (`handlers/hipchat.py` 27-35).  `room` and
`key` are asserted truthy with a message; the third `assert` is applied to
the parenthesised 2-tuple `(self.api_version in SUPPORTED_API_VERSIONS,
'Hipchat API version ... is not supported')` — a non-empty tuple, which is
always truthy, so that assertion can never fail.  On success the handler's
assigned fields are returned. -/
def hipchatInitHandler (options : List (String × CVal)) :
    Except String (CVal × CVal × CVal) :=
  let room := (lookupKey options "room").getD .null
  let key := (lookupKey options "key").getD .null
  let api_version := (lookupKey options "api_version").getD (.int 2)
  if pyTruthy room = false then .error "Hipchat room is not defined."
  else if pyTruthy key = false then .error "Hipchat key is not defined."
  else if pyTruthy (.tuple [.bool (pyIn api_version SUPPORTED_API_VERSIONS),
      .str "Hipchat API version is not supported"]) = false then
    .error "Hipchat API version is not supported"
  else .ok (room, key, api_version)

/-- C6: for every scalar or absent (`None`) `a` and every `b`,
`merge_configurations(a, b)` yields `b`; for every list `a` it yields `a`'s
elements followed by `b`'s elements when `b` is a list, and `a`'s elements
followed by the single element `b` otherwise. -/
theorem merge_scalar_replaces_and_list_appends (a b : CVal) :
    (isScalar a = true → merge a b = .ok b)
  ∧ (∀ xs ys, a = .list xs → b = .list ys → merge a b = .ok (.list (xs ++ ys)))
  ∧ (∀ xs, a = .list xs → (∀ ys, b ≠ .list ys) → merge a b = .ok (.list (xs ++ [b]))) := by
  refine ⟨fun h => ?_, fun xs ys ha hb => ?_, fun xs ha hb => ?_⟩
  · cases a <;> simp [isScalar] at h <;> simp [merge]
  · subst ha; subst hb; simp [merge]
  · subst ha; cases b <;> simp [merge]
    exact absurd rfl (hb _)

/-- Witness for C6 at concrete scalar and list inputs. -/
theorem merge_scalar_replaces_and_list_appends_witness :
    merge (.int 1) (.str "x") = .ok (.str "x")
  ∧ merge (.list [.int 1]) (.list [.int 2]) = .ok (.list [.int 1, .int 2])
  ∧ merge (.list [.int 1]) (.int 5) = .ok (.list [.int 1, .int 5]) :=
  ⟨(merge_scalar_replaces_and_list_appends (.int 1) (.str "x")).1 rfl,
   (merge_scalar_replaces_and_list_appends _ _).2.1 [.int 1] [.int 2] rfl rfl,
   (merge_scalar_replaces_and_list_appends (.list [.int 1]) (.int 5)).2.2 [.int 1] rfl
     (fun _ h => CVal.noConfusion h)⟩

/-- C5 counterexample: merging `{p: 2, q: 3}` into `{p: 1, q: {x: 1}}` raises
the merge error while the recursive key-wise merge is under way, and the
caller's mapping is left with `p` already overwritten to `2` — a partial
mutation IS observable, refuting the claim that none is. -/
theorem merge_nested_error_mutates_partially :
    merge (.dict [("p", .int 1), ("q", .dict [("x", .int 1)])])
          (.dict [("p", .int 2), ("q", .int 3)])
      = .err (.dict [("p", .int 2), ("q", .dict [("x", .int 1)])])
  ∧ (CVal.dict [("p", .int 2), ("q", .dict [("x", .int 1)])]
      ≠ .dict [("p", .int 1), ("q", .dict [("x", .int 1)])]) := by
  constructor
  · simp [merge, mergeDict, lookupKey, setKey]
  · simp

/-- C5 amended: merging a non-mapping `b` into a mapping `a` raises a merge
error; when the mismatch is at the TOP level the error is raised before any
key of `a` is touched, so `a` is unchanged (whereas under a nested key,
bindings of `b` processed earlier remain merged in — see the
counterexample). -/
theorem merge_dict_nonmapping_err_top_level (kvs : List (String × CVal)) (b : CVal)
    (hb : ∀ bkvs, b ≠ .dict bkvs) : merge (.dict kvs) b = .err (.dict kvs) := by
  cases b <;> simp [merge]
  exact absurd rfl (hb _)

/-- Witness for the amended C5 at a concrete mapping/non-mapping pair. -/
theorem merge_dict_nonmapping_err_top_level_witness :
    merge (.dict [("a", .int 1)]) (.int 7) = .err (.dict [("a", .int 1)]) :=
  merge_dict_nonmapping_err_top_level [("a", .int 1)] (.int 7)
    (fun _ h => CVal.noConfusion h)

/-- C9: `PagerDutyHandler.notify` with a level other than `critical` or
`normal` returns without issuing any HTTP request; level `critical` always
produces an event of type `trigger` and level `normal` an event of type
`resolve`. -/
theorem pagerduty_notify_level_dispatch (level alertName message : String) :
    (level ≠ "critical" → level ≠ "normal" → pagerdutyNotify level alertName message = none)
  ∧ (pagerdutyNotify "critical" alertName message =
      some { event_type := "trigger", description := message, incident_key := alertName })
  ∧ (pagerdutyNotify "normal" alertName message =
      some { event_type := "resolve", description := message, incident_key := alertName }) := by
  refine ⟨fun h1 h2 => ?_, by simp [pagerdutyNotify], by simp [pagerdutyNotify]⟩
  simp [pagerdutyNotify, h1, h2]

/-- Witness for C9 at the concrete level `warning`. -/
theorem pagerduty_notify_level_dispatch_witness :
    pagerdutyNotify "warning" "a" "m" = none :=
  (pagerduty_notify_level_dispatch "warning" "a" "m").1 (by decide) (by decide)

/-- C10: for every `api_version` option value, `HipChatHandler.init_handler`
succeeds provided `room` and `key` are set: the api-version assertion is
applied to a non-empty tuple and is therefore always true. -/
theorem hipchat_init_ignores_api_version (options : List (String × CVal))
    (hroom : pyTruthy ((lookupKey options "room").getD .null) = true)
    (hkey : pyTruthy ((lookupKey options "key").getD .null) = true) :
    hipchatInitHandler options =
      .ok ((lookupKey options "room").getD .null, (lookupKey options "key").getD .null,
           (lookupKey options "api_version").getD (.int 2)) := by
  unfold hipchatInitHandler
  simp only [hroom, hkey]
  simp [pyTruthy]

/-- Witness for C10 with the unsupported `api_version = 99`. -/
theorem hipchat_init_ignores_api_version_witness :
    pyTruthy ((lookupKey [("room", .str "r"), ("key", .str "k"), ("api_version", .int 99)]
        "room").getD .null) = true
  ∧ hipchatInitHandler [("room", .str "r"), ("key", .str "k"), ("api_version", .int 99)]
      = .ok (.str "r", .str "k", .int 99) := by
  refine ⟨by decide, ?_⟩
  have h := hipchat_init_ignores_api_version
    [("room", .str "r"), ("key", .str "k"), ("api_version", .int 99)] (by decide) (by decide)
  simpa [lookupKey] using h

/-- C1: whenever configuration loading succeeds but constructing any alert
or handler raises, `reinit` re-raises and the reactor's `options`,
`defaults`, alert set and handler map are all identical (by value) to their
pre-call state — no partial adoption of the new configuration is
observable. -/
theorem reinit_construction_failure_rolls_back {A H : Type} [DecidableEq A]
    (fs : FileSys) (fuel : Nat) (aCtor : CVal → Option A) (hCtor : CVal → Option H)
    (r : Reactor A H) (options : List (String × CVal))
    (nopts : CVal) (tr0 : List String)
    (hload : load_configuration fs fuel (updateAll r.defaults options) = .ok (nopts, tr0))
    (hfail : buildAlerts aCtor (pyDictGet nopts "alerts" (.list [])) = .error ()
           ∨ load_handlers hCtor nopts = .error ()) :
    reinit fs fuel aCtor hCtor r options = .error (.buildErr, r, []) := by
  unfold reinit
  simp only [hload]
  rcases hfail with h | h
  · simp [h]
  · cases hb : buildAlerts aCtor (pyDictGet nopts "alerts" (.list [])) with
    | error e => simp [hb]
    | ok als => simp [hb, h]

/-- Filesystem for the C1 witness: every path holds one alert entry. -/
def c1FS : FileSys := fun _ => some (.dict [("alerts", .list [.dict []])])

/-- Reactor for the C1 witness. -/
def c1Reactor : Reactor Nat Nat :=
  { options := none, defaults := [("config", .str "c")], alerts := [], handlers := [] }

/-- Witness for C1: the load succeeds, the alert factory raises, and the
reactor comes back unchanged. -/
theorem reinit_construction_failure_rolls_back_witness :
    reinit c1FS 5 (fun _ => (none : Option Nat)) (fun _ => (none : Option Nat))
      c1Reactor [] = .error (.buildErr, c1Reactor, []) :=
  reinit_construction_failure_rolls_back c1FS 5 _ _ c1Reactor []
    (.dict [("config", .str "c"), ("alerts", .list [.dict []])]) ["c"] rfl (Or.inl rfl)

/-- Filesystem for the C2 run: the new configuration replaces alert `X` by
alert `Y` and registers no handlers. -/
def c2FS : FileSys := fun _ => some (.dict
  [("alerts", .list [.str "Y"]),
   ("critical_handlers", .list []),
   ("normal_handlers", .list []),
   ("warning_handlers", .list [])])

/-- Alert factory for the C2 run: the instance built for an alert options
entry is its name (distinct configurations give distinct identities, as the
real factory builds fresh instances on every reinit). -/
def strAlertCtor : CVal → Option String
  | .str s => some s
  | _ => none

/-- Reactor state before the second reinit of the C2 scenario: alert `X` is
active. -/
def c2Reactor : Reactor String Nat :=
  { options := none, defaults := [("config", .str "c")], alerts := ["X"], handlers := [] }

/-- The options the second reinit of the C2 scenario loads. -/
def c2Opts : CVal := .dict
  [("config", .str "c"),
   ("alerts", .list [.str "Y"]),
   ("critical_handlers", .list []),
   ("normal_handlers", .list []),
   ("warning_handlers", .list [])]

/-- C2 (code bug, evaluated at the failing input): reinit with a valid
configuration that removes alert `X` and adds alert `Y` does NOT perform the
symmetric-difference lifecycle of the claim.  The loop at `core.py` 98-100
stops every old alert and then calls `self.alerts.remove(alert)` on the NEW
set, so it stops `X` once and immediately raises `KeyError`; `Y` is never
started and the call fails after committing the new options, defaults and
(empty) handler map. -/
theorem reinit_remove_add_raises_keyerror :
    reinit c2FS 5 strAlertCtor (fun _ => (none : Option Nat)) c2Reactor []
      = .error (.keyError,
          { options := some c2Opts,
            defaults := [("config", .str "c")],
            alerts := ["Y"], handlers := [] },
          [.stop "X"]) := rfl

/-- Every successful `load_handlers` result is the empty mapping: the
per-level `handler_set`s are built and discarded (`core.py` 158-169 never
executes `handlers[level] = handler_set`). -/
theorem load_handlers_always_empty {H : Type} (hCtor : CVal → Option H) (options : CVal)
    (m : List (String × List H)) (h : load_handlers hCtor options = .ok m) : m = [] := by
  unfold load_handlers at h
  split at h <;> try simp_all
  split at h <;> try simp_all
  split at h <;> simp_all

/-- C3 (code bug): after EVERY successful `reinit` the committed handler map
is empty, so `notify(level, ...)` delivers the event to no handler at all —
not to the handlers the configuration registers under `<level>_handlers`. -/
theorem notify_after_reinit_delivers_nothing {A H : Type} [DecidableEq A]
    (fs : FileSys) (fuel : Nat) (aCtor : CVal → Option A) (hCtor : CVal → Option H)
    (r : Reactor A H) (options : List (String × CVal)) (r2 : Reactor A H) (tr : List (LifeEv A))
    (h : reinit fs fuel aCtor hCtor r options = .ok (r2, tr)) :
    r2.handlers = [] ∧ ∀ level, notify r2 level = [] := by
  unfold reinit at h
  dsimp only at h
  split at h
  · simp at h
  split at h
  · simp at h
  split at h
  · simp at h
  rename_i nh hh
  split at h
  · simp at h
  rename_i cur tr2 hstop
  have hempty : nh = [] := load_handlers_always_empty hCtor _ _ hh
  subst hempty
  simp only [Except.ok.injEq, Prod.mk.injEq] at h
  obtain ⟨h1, h2⟩ := h
  subst h1
  exact ⟨rfl, fun level => rfl⟩

/-- Filesystem for the C3 witness: a configuration registering the `log`
handler for every severity. -/
def c3FS : FileSys := fun _ => some (.dict
  [("critical_handlers", .list [.str "log"]),
   ("normal_handlers", .list [.str "log"]),
   ("warning_handlers", .list [.str "log"])])

/-- Reactor for the C3 witness. -/
def c3Reactor : Reactor Nat Nat :=
  { options := none, defaults := [("config", .str "c")], alerts := [], handlers := [] }

/-- The reactor state the C3 witness reinit produces: options name `log`
under every `<level>_handlers`, yet the handler map is empty. -/
def c3After : Reactor Nat Nat :=
  { options := some (.dict
      [("config", .str "c"),
       ("critical_handlers", .list [.str "log"]),
       ("normal_handlers", .list [.str "log"]),
       ("warning_handlers", .list [.str "log"])]),
    defaults := [("config", .str "c")], alerts := [], handlers := [] }

/-- Witness for C3: after a successful reinit whose configuration registers
`log` under `critical_handlers` (and whose handler constructions all
succeed), a `critical` notification reaches no handler. -/
theorem notify_after_reinit_delivers_nothing_witness :
    notify c3After "critical" = ([] : List Nat) :=
  (notify_after_reinit_delivers_nothing c3FS 5 (fun _ => some 0) (fun _ => some 0)
    c3Reactor [] c3After [] rfl).2 "critical"

/-- When the handler map has no entry for `level`, every iteration of the
`reinit_handlers` loop fails with `KeyError`, is logged, and leaves the map
unchanged. -/
theorem reinitHandlersGo_absent {H : Type} [DecidableEq H] (hCtor : CVal → Option H)
    (level : String) (handlers : List (String × List H)) (names : List CVal)
    (h : lookupLevelOpt handlers level = none) :
    reinitHandlersGo hCtor level handlers names = (handlers, names) := by
  induction names with
  | nil => rfl
  | cons n rest ih => simp [reinitHandlersGo, h, ih]

/-- C7 amended: provided `options` holds a list under `<level>_handlers`,
`reinit_handlers(level)` never raises and never touches the alert set (or
options/defaults); every failing name — handler construction failure or the
`KeyError` from a missing per-level entry — is logged and does not abort the
remaining names.  It does NOT rebuild the severity's handler set: it only
adds into an existing entry, and when the level is absent from the handler
map (as it always is after a reinit, which commits an empty map) the call
changes nothing and logs every name. -/
theorem reinit_handlers_logs_and_does_not_raise {A H : Type} [DecidableEq H]
    (hCtor : CVal → Option H) (r : Reactor A H) (level : String)
    (opts : CVal) (names : List CVal)
    (hopts : r.options = some opts)
    (hkey : pyGetItem opts (level ++ "_handlers") = some (.list names)) :
    (∃ (r2 : Reactor A H) (failed : List CVal),
        reinit_handlers hCtor r level = .ok (r2, failed)
        ∧ r2.alerts = r.alerts ∧ r2.options = r.options ∧ r2.defaults = r.defaults)
  ∧ (lookupLevelOpt r.handlers level = none →
        reinit_handlers hCtor r level = .ok (r, names)) := by
  constructor
  · unfold reinit_handlers
    simp only [hopts, hkey]
    refine ⟨_, _, rfl, rfl, rfl, rfl⟩
  · intro habs
    unfold reinit_handlers
    simp only [hopts, hkey]
    rw [reinitHandlersGo_absent hCtor level r.handlers names habs, ← hopts]

/-- Reactor for the C7 theorems: post-reinit state (empty handler map) whose
options register `log` under `critical_handlers`. -/
def c7Reactor : Reactor Nat Nat :=
  { options := some (.dict [("critical_handlers", .list [.str "log"])]),
    defaults := [], alerts := [], handlers := [] }

/-- C7 counterexample: with `critical_handlers = ['log']` in the options and
a handler constructor that succeeds (returning instance `0`),
`reinit_handlers('critical')` completes without raising but leaves the
handler map unchanged — the per-level set is NOT rebuilt from the options
(the claim would require it to become `[0]`); the name was logged as
failed. -/
theorem reinit_handlers_does_not_rebuild :
    reinit_handlers (fun _ => some (0 : Nat)) c7Reactor "critical"
      = .ok (c7Reactor, [.str "log"])
  ∧ lookupLevel c7Reactor.handlers "critical" ≠ [(0 : Nat)] :=
  ⟨rfl, by simp [c7Reactor, lookupLevel]⟩

/-- Witness for the amended C7 at a concrete reactor. -/
theorem reinit_handlers_logs_and_does_not_raise_witness :
    reinit_handlers (fun _ => some (1 : Nat)) c7Reactor "critical"
      = .ok (c7Reactor, [.str "log"]) :=
  (reinit_handlers_logs_and_does_not_raise (fun _ => some (1 : Nat)) c7Reactor "critical"
    (.dict [("critical_handlers", .list [.str "log"])]) [.str "log"] rfl rfl).2 rfl

/-- Updating an absent key leaves other lookups unchanged. -/
theorem lookupKey_setKey_ne (a : List (String × CVal)) (k q : String) (v : CVal)
    (h : k ≠ q) : lookupKey (setKey a k v) q = lookupKey a q := by
  induction a with
  | nil => simp [setKey, lookupKey, h]
  | cons kv rest ih =>
      obtain ⟨k0, v0⟩ := kv
      by_cases hk : k0 = k
      · subst hk
        simp [setKey, lookupKey, h]
      · simp [setKey, lookupKey, hk, ih]

/-- `pop` really removes the key. -/
theorem lookupKey_removeKey (kvs : List (String × CVal)) (q : String) :
    lookupKey (removeKey kvs q) q = none := by
  induction kvs with
  | nil => rfl
  | cons kv rest ih =>
      obtain ⟨k0, v0⟩ := kv
      by_cases hk : k0 = q
      · simpa [removeKey, hk] using ih
      · simpa [removeKey, lookupKey, hk] using ih

/-- A fragment returned by `popIncludeList` has no top-level `include`. -/
theorem popIncludeList_no_include (v : CVal) (nested : List CVal)
    (kvs : List (String × CVal)) (h : popIncludeList v = .ok (nested, kvs)) :
    lookupKey kvs "include" = none := by
  unfold popIncludeList at h
  split at h
  · split at h
    · rename_i kvs0 hnone
      injection h with h1
      injection h1 with h2 h3
      subst h3
      exact hnone
    · injection h with h1
      injection h1 with h2 h3
      subst h3
      exact lookupKey_removeKey _ "include"
    · simp at h
  · simp at h

/-- Merging two mappings that both lack key `q` yields a mapping lacking
`q`. -/
theorem mergeDict_lookup_none (q : String) :
    ∀ (b a : List (String × CVal)), lookupKey a q = none → lookupKey b q = none →
      ∀ res, mergeDict a b = .ok res →
      ∃ out, res = .dict out ∧ lookupKey out q = none := by
  intro b
  induction b with
  | nil =>
      intro a ha _ res h
      unfold mergeDict at h
      injection h with h1
      exact ⟨a, h1.symm, ha⟩
  | cons kv rest ih =>
      intro a ha hb res h
      obtain ⟨k, v⟩ := kv
      have hk : k ≠ q := by
        intro e
        subst e
        simp [lookupKey] at hb
      have hrest : lookupKey rest q = none := by
        simpa [lookupKey, hk] using hb
      unfold mergeDict at h
      split at h
      · exact ih (setKey a k v) (by rw [lookupKey_setKey_ne a k q v hk]; exact ha) hrest res h
      · split at h
        · rename_i av hav mv hmv
          exact ih (setKey a k mv)
            (by rw [lookupKey_setKey_ne a k q mv hk]; exact ha) hrest res h
        · simp at h

/-- Folding fragments that all lack key `q` over an accumulator lacking `q`
keeps `q` absent. -/
theorem mergeAll_lookup_none (q : String) :
    ∀ (cfgs : List (List (String × CVal))) (acc : List (String × CVal)),
      lookupKey acc q = none → (∀ c ∈ cfgs, lookupKey c q = none) →
      ∀ m, mergeAll (.dict acc) cfgs = .ok m →
      ∃ out, m = .dict out ∧ lookupKey out q = none := by
  intro cfgs
  induction cfgs with
  | nil =>
      intro acc ha _ m h
      unfold mergeAll at h
      injection h with h1
      exact ⟨acc, h1.symm, ha⟩
  | cons c rest ih =>
      intro acc ha hall m h
      unfold mergeAll at h
      split at h
      · rename_i m2 hmerge
        have hmd : mergeDict acc c = .ok m2 := hmerge
        obtain ⟨out2, hout2, hlk⟩ :=
          mergeDict_lookup_none q c acc ha (hall c (by simp)) m2 hmd
        subst hout2
        exact ih out2 hlk (fun x hx => hall x (by simp [hx])) m h
      · simp at h

/-- Every fragment collected by the work-list loop has its `include` key
consumed. -/
theorem loadLoop_fragments_no_include (fs : FileSys) :
    ∀ (fuel : Nat) (stack : List CVal) (cfgs : List (List (String × CVal)))
      (tr : List String), loadLoop fs fuel stack = .ok (cfgs, tr) →
      ∀ c ∈ cfgs, lookupKey c "include" = none := by
  intro fuel
  induction fuel with
  | zero =>
      intro stack cfgs tr h c hc
      cases stack with
      | nil =>
          unfold loadLoop at h
          injection h with h1
          injection h1 with h2 h3
          subst h2
          simp at hc
      | cons p rest => simp [loadLoop] at h
  | succ n ih =>
      intro stack cfgs tr h c hc
      cases stack with
      | nil =>
          unfold loadLoop at h
          injection h with h1
          injection h1 with h2 h3
          subst h2
          simp at hc
      | cons p rest =>
          unfold loadLoop at h
          by_cases hp : pyTruthy p = true
          · rw [if_pos hp] at h
            cases p with
            | str s =>
                cases hfs : fs s with
                | none =>
                    simp only [hfs] at h
                    exact Except.noConfusion h
                | some v =>
                    simp only [hfs] at h
                    cases hpop : popIncludeList v with
                    | error e =>
                        simp only [hpop] at h
                        exact Except.noConfusion h
                    | ok pr =>
                        obtain ⟨nested, kvs⟩ := pr
                        simp only [hpop] at h
                        cases hloop : loadLoop fs n (nested ++ rest) with
                        | error e =>
                            simp only [hloop] at h
                            exact Except.noConfusion h
                        | ok pr2 =>
                            obtain ⟨cfgs2, tr2⟩ := pr2
                            simp only [hloop] at h
                            obtain ⟨h2, h3⟩ : kvs :: cfgs2 = cfgs ∧ s :: tr2 = tr := by
                              simpa using h
                            subst h2
                            rcases List.mem_cons.mp hc with hc1 | hc1
                            · subst hc1
                              exact popIncludeList_no_include v nested c hpop
                            · exact ih _ _ _ hloop c hc1
            | null => simp at h
            | bool b => simp at h
            | int m => simp at h
            | float q => simp at h
            | list xs => simp at h
            | dict kvs => simp at h
            | tuple xs => simp at h
          · rw [if_neg hp] at h
            exact ih _ _ _ h c hc

/-- The merged tree of a successful `loadConfigGo` run (whose popped
defaults lack `include`) has no `include` key. -/
theorem loadConfigGo_no_include (fs : FileSys) (fuel : Nat)
    (d : List (String × CVal)) (incs : List CVal) (m : CVal) (tr : List String)
    (hd : lookupKey d "include" = none)
    (h : loadConfigGo fs fuel d incs = .ok (m, tr)) :
    ∃ out, m = .dict out ∧ lookupKey out "include" = none := by
  unfold loadConfigGo at h
  cases hloop : loadLoop fs fuel (((lookupKey d "config").getD .null) :: incs.reverse) with
  | error e =>
      rw [hloop] at h
      exact Except.noConfusion h
  | ok pr =>
      obtain ⟨cfgs, tr0⟩ := pr
      rw [hloop] at h
      dsimp only at h
      cases hall : mergeAll (.dict []) (d :: cfgs) with
      | error e =>
          rw [hall] at h
          exact Except.noConfusion h
      | ok m2 =>
          rw [hall] at h
          dsimp only at h
          obtain ⟨hm, htr⟩ : m2 = m ∧ tr0 = tr := by simpa using h
          subst hm
          exact mergeAll_lookup_none "include" (d :: cfgs) [] rfl
            (fun c hc => by
              rcases List.mem_cons.mp hc with h1 | h1
              · subst h1
                exact hd
              · exact loadLoop_fragments_no_include fs fuel _ _ _ hloop c h1) m2 hall

/-- C8: the merged tree returned by every successful `load_configuration`
contains no unresolved `include` directive — each fragment's top-level
`include` key is consumed during loading, so the result (always a mapping)
has no `include` key. -/
theorem load_configuration_no_include (fs : FileSys) (fuel : Nat)
    (defaults : List (String × CVal)) (m : CVal) (tr : List String)
    (h : load_configuration fs fuel defaults = .ok (m, tr)) :
    ∃ out, m = .dict out ∧ lookupKey out "include" = none := by
  unfold load_configuration at h
  split at h
  · exact loadConfigGo_no_include fs fuel _ _ m tr (lookupKey_removeKey defaults "include") h
  · exact Except.noConfusion h
  · rename_i hincs
    exact loadConfigGo_no_include fs fuel _ _ m tr hincs h

/-- Filesystem for the C8 witness: `c` includes `i`, both with `include`
directives consumed during the load. -/
def c8FS : FileSys := fun p =>
  if p = "c" then some (.dict [("include", .list [.str "i"]), ("x", .int 1)])
  else if p = "i" then some (.dict [("y", .int 2)])
  else none

/-- Witness for C8 on a concrete two-file load. -/
theorem load_configuration_no_include_witness :
    ∃ out, CVal.dict [("config", .str "c"), ("x", .int 1), ("y", .int 2)] = .dict out
      ∧ lookupKey out "include" = none :=
  load_configuration_no_include c8FS 5 [("config", .str "c")]
    (.dict [("config", .str "c"), ("x", .int 1), ("y", .int 2)]) ["c", "i"] rfl

/-- One more unit of fuel never changes a successful run of the work-list
loop. -/
theorem loadLoop_fuel_succ (fs : FileSys) :
    ∀ (n : Nat) (stack : List CVal) (r : List (List (String × CVal)) × List String),
      loadLoop fs n stack = .ok r → loadLoop fs (n + 1) stack = .ok r := by
  intro n
  induction n with
  | zero =>
      intro stack r h
      cases stack with
      | nil => simpa [loadLoop] using h
      | cons p rest => simp [loadLoop] at h
  | succ n ih =>
      intro stack r h
      cases stack with
      | nil => simpa [loadLoop] using h
      | cons p rest =>
          unfold loadLoop at h ⊢
          by_cases hp : pyTruthy p = true
          · rw [if_pos hp] at h ⊢
            cases p with
            | str s =>
                cases hfs : fs s with
                | none =>
                    simp only [hfs] at h
                    exact Except.noConfusion h
                | some v =>
                    simp only [hfs] at h ⊢
                    cases hpop : popIncludeList v with
                    | error e =>
                        simp only [hpop] at h
                        exact Except.noConfusion h
                    | ok pr =>
                        obtain ⟨nested, kvs⟩ := pr
                        simp only [hpop] at h ⊢
                        cases hloop : loadLoop fs n (nested ++ rest) with
                        | error e =>
                            simp only [hloop] at h
                            exact Except.noConfusion h
                        | ok pr2 =>
                            simp only [hloop] at h
                            rw [ih _ _ hloop]
                            exact h
            | null => simp at h
            | bool b => simp at h
            | int m => simp at h
            | float q => simp at h
            | list xs => simp at h
            | dict kvs => simp at h
            | tuple xs => simp at h
          · rw [if_neg hp] at h ⊢
            exact ih _ _ h

/-- Fuel monotonicity for successful runs of the work-list loop. -/
theorem loadLoop_fuel_mono (fs : FileSys) {n m : Nat} (hnm : n ≤ m) :
    ∀ (stack : List CVal) (r : List (List (String × CVal)) × List String),
      loadLoop fs n stack = .ok r → loadLoop fs m stack = .ok r := by
  induction hnm with
  | refl => exact fun _ _ h => h
  | step _ ih => exact fun stack r h => loadLoop_fuel_succ fs _ stack r (ih stack r h)

/-- A successful run over a concatenated work list decomposes into a run
over the front followed by a run over the back: entries earlier in the
(reversed) list are fully processed — including everything they push —
before later pending entries are touched. -/
theorem loadLoop_append (fs : FileSys) :
    ∀ (n : Nat) (xs ys : List CVal) (cfgs : List (List (String × CVal))) (tr : List String),
      loadLoop fs n (xs ++ ys) = .ok (cfgs, tr) →
      ∃ cs1 tr1 cs2 tr2, loadLoop fs n xs = .ok (cs1, tr1)
        ∧ loadLoop fs n ys = .ok (cs2, tr2)
        ∧ cfgs = cs1 ++ cs2 ∧ tr = tr1 ++ tr2 := by
  intro n
  induction n with
  | zero =>
      intro xs ys cfgs tr h
      cases xs with
      | nil => exact ⟨[], [], cfgs, tr, rfl, h, rfl, rfl⟩
      | cons p rest => simp [loadLoop] at h
  | succ n ih =>
      intro xs ys cfgs tr h
      cases xs with
      | nil => exact ⟨[], [], cfgs, tr, rfl, h, rfl, rfl⟩
      | cons p rest =>
          rw [List.cons_append] at h
          unfold loadLoop at h
          by_cases hp : pyTruthy p = true
          · rw [if_pos hp] at h
            cases p with
            | str s =>
                cases hfs : fs s with
                | none =>
                    simp only [hfs] at h
                    exact Except.noConfusion h
                | some v =>
                    simp only [hfs] at h
                    cases hpop : popIncludeList v with
                    | error e =>
                        simp only [hpop] at h
                        exact Except.noConfusion h
                    | ok pr =>
                        obtain ⟨nested, kvs⟩ := pr
                        simp only [hpop] at h
                        rw [show nested ++ (rest ++ ys) = (nested ++ rest) ++ ys from
                          (List.append_assoc nested rest ys).symm] at h
                        cases hloop : loadLoop fs n ((nested ++ rest) ++ ys) with
                        | error e =>
                            simp only [hloop] at h
                            exact Except.noConfusion h
                        | ok pr2 =>
                            obtain ⟨cfgs0, tr0⟩ := pr2
                            simp only [hloop] at h
                            obtain ⟨hcf, htr⟩ : kvs :: cfgs0 = cfgs ∧ s :: tr0 = tr := by
                              simpa using h
                            obtain ⟨cs1, tr1, cs2, tr2, h1, h2, h3, h4⟩ :=
                              ih (nested ++ rest) ys cfgs0 tr0 hloop
                            refine ⟨kvs :: cs1, s :: tr1, cs2, tr2, ?_, ?_, ?_, ?_⟩
                            · unfold loadLoop
                              rw [if_pos hp]
                              simp only [hfs, hpop, List.append_nil, h1]
                            · exact loadLoop_fuel_succ fs n ys (cs2, tr2) h2
                            · rw [← hcf, h3]
                              rfl
                            · rw [← htr, h4]
                              rfl
            | null => simp at h
            | bool b => simp at h
            | int m => simp at h
            | float q => simp at h
            | list xs2 => simp at h
            | dict kvs2 => simp at h
            | tuple xs2 => simp at h
          · rw [if_neg hp] at h
            obtain ⟨cs1, tr1, cs2, tr2, h1, h2, h3, h4⟩ := ih rest ys cfgs tr h
            refine ⟨cs1, tr1, cs2, tr2, ?_, loadLoop_fuel_succ fs n ys (cs2, tr2) h2, h3, h4⟩
            unfold loadLoop
            rw [if_neg hp]
            exact h1

/-- The trace of file paths contributed by a single work-list entry. -/
def singleTrace (fs : FileSys) (fuel : Nat) (p : CVal) : List String :=
  match loadLoop fs fuel [p] with
  | .ok (_, t) => t
  | .error _ => []

/-- The trace of a successful run is the concatenation of each work-list
entry's own depth-first trace, in work-list order. -/
theorem loadLoop_trace_flatten (fs : FileSys) (n : Nat) :
    ∀ (stack : List CVal) (cfgs : List (List (String × CVal))) (tr : List String),
      loadLoop fs n stack = .ok (cfgs, tr) →
      tr = stack.flatMap (singleTrace fs n) := by
  intro stack
  induction stack with
  | nil =>
      intro cfgs tr h
      obtain ⟨hc, ht⟩ : [] = cfgs ∧ [] = tr := by
        cases n <;> simpa [loadLoop] using h
      simp [← ht]
  | cons p rest ih =>
      intro cfgs tr h
      have h2 : loadLoop fs n ([p] ++ rest) = .ok (cfgs, tr) := by simpa using h
      obtain ⟨cs1, tr1, cs2, tr2, hA, hB, hC, hD⟩ := loadLoop_append fs n [p] rest cfgs tr h2
      subst hD
      have hs : singleTrace fs n p = tr1 := by
        unfold singleTrace
        rw [hA]
      rw [List.flatMap_cons, hs, ih cs2 tr2 hB]

/-- A loaded file contributes its own path first, then the depth-first
traces of its nested includes in their original left-to-right declaration
order. -/
theorem singleTrace_depth_first (fs : FileSys) (n : Nat) (s : String) (v : CVal)
    (nested : List CVal) (kvs : List (String × CVal))
    (cfgs : List (List (String × CVal))) (tr : List String)
    (hs : pyTruthy (.str s) = true)
    (hfs : fs s = some v) (hpop : popIncludeList v = .ok (nested, kvs))
    (hok : loadLoop fs (n + 1) [.str s] = .ok (cfgs, tr)) :
    tr = s :: nested.flatMap (singleTrace fs n) := by
  unfold loadLoop at hok
  rw [if_pos hs] at hok
  simp only [hfs, hpop, List.append_nil] at hok
  cases hloop : loadLoop fs n nested with
  | error e =>
      rw [hloop] at hok
      exact Except.noConfusion hok
  | ok pr =>
      obtain ⟨cfgs0, tr0⟩ := pr
      rw [hloop] at hok
      obtain ⟨h1, h2⟩ : kvs :: cfgs0 = cfgs ∧ s :: tr0 = tr := by simpa using hok
      rw [← h2, loadLoop_trace_flatten fs n nested cfgs0 tr0 hloop]

/-- C4 amended: loading is depth-first — the primary config path is loaded
first and each loaded file contributes its path followed by the full
subtrees of its nested includes in their original left-to-right order,
before earlier pending work-list entries — but the includes declared in the
options themselves are processed in REVERSE declaration order (the list is
seeded un-reversed into a LIFO work list). -/
theorem load_configuration_processing_order (fs : FileSys) (fuel : Nat)
    (defaults : List (String × CVal)) (incs : List CVal) (m : CVal) (tr : List String)
    (hinc : lookupKey defaults "include" = some (.list incs))
    (h : load_configuration fs fuel defaults = .ok (m, tr)) :
    (tr = singleTrace fs fuel ((lookupKey (removeKey defaults "include") "config").getD .null)
          ++ incs.reverse.flatMap (singleTrace fs fuel))
  ∧ (∀ (n : Nat) (s : String) (v : CVal) (nested : List CVal) (kvs : List (String × CVal))
        (cfgs2 : List (List (String × CVal))) (tr2 : List String),
        pyTruthy (.str s) = true → fs s = some v →
        popIncludeList v = .ok (nested, kvs) →
        loadLoop fs (n + 1) [.str s] = .ok (cfgs2, tr2) →
        tr2 = s :: nested.flatMap (singleTrace fs n)) := by
  constructor
  · unfold load_configuration at h
    simp only [hinc] at h
    unfold loadConfigGo at h
    cases hloop : loadLoop fs fuel
        (((lookupKey (removeKey defaults "include") "config").getD .null) :: incs.reverse) with
    | error e =>
        rw [hloop] at h
        exact Except.noConfusion h
    | ok pr =>
        obtain ⟨cfgs, tr0⟩ := pr
        rw [hloop] at h
        dsimp only at h
        cases hall : mergeAll (.dict []) ((removeKey defaults "include") :: cfgs) with
        | error e =>
            rw [hall] at h
            exact Except.noConfusion h
        | ok m2 =>
            rw [hall] at h
            obtain ⟨hm, htr⟩ : m2 = m ∧ tr0 = tr := by simpa using h
            rw [← htr]
            have hfl := loadLoop_trace_flatten fs fuel _ _ _ hloop
            simpa [List.flatMap_cons] using hfl
  · intro n s v nested kvs cfgs2 tr2 hs hfs hpop hok
    exact singleTrace_depth_first fs n s v nested kvs cfgs2 tr2 hs hfs hpop hok

/-- Filesystem for the C4 witness: the primary config `c` nests includes
`n1`, `n2`; the options declare includes `a`, `b`. -/
def c4FS : FileSys := fun p =>
  if p = "c" then some (.dict [("include", .list [.str "n1", .str "n2"])])
  else if p = "n1" ∨ p = "n2" ∨ p = "a" ∨ p = "b" then some (.dict [])
  else none

/-- Witness for the amended C4: the load order is `c`, its nested `n1`,
`n2`, then the options' includes in reverse order `b`, `a`. -/
theorem load_configuration_processing_order_witness :
    (["c", "n1", "n2", "b", "a"] : List String)
      = singleTrace c4FS 9
          ((lookupKey (removeKey
              [("config", .str "c"), ("include", .list [.str "a", .str "b"])] "include")
            "config").getD .null)
        ++ ([CVal.str "a", CVal.str "b"].reverse).flatMap (singleTrace c4FS 9) :=
  (load_configuration_processing_order c4FS 9
    [("config", .str "c"), ("include", .list [.str "a", .str "b"])]
    [.str "a", .str "b"] (.dict [("config", .str "c")]) ["c", "n1", "n2", "b", "a"]
    rfl rfl).1

/-- Filesystem for the C4 counterexample: three flat config files. -/
def c4bFS : FileSys := fun p =>
  if p = "c" ∨ p = "a" ∨ p = "b" then some (.dict []) else none

/-- C4 counterexample: with options declaring `include: [a, b]` and config
`c`, the files are loaded in the order `c, b, a` — the options' own includes
are processed in REVERSE declaration order, not declaration order `c, a, b`
as the claim states. -/
theorem options_includes_processed_in_reverse_order :
    load_configuration c4bFS 9 [("config", .str "c"), ("include", .list [.str "a", .str "b"])]
      = .ok (.dict [("config", .str "c")], ["c", "b", "a"])
  ∧ (["c", "b", "a"] : List String) ≠ ["c", "a", "b"] :=
  ⟨rfl, by decide⟩
